import Mathlib

set_option linter.unusedVariables false

/-!
Shallow embedding of the quant_framework backtest core
(`src/position_manager.py` and `src/backtest_engine.py`) and proofs of the
spec claims about it.

Conventions of the embedding:
* Python floats are modelled as exact rationals (`ℚ`); `round(x, p)` is
  modelled by `pyRound`, Python's round-half-to-even at `p` decimal digits.
* Timestamps are modelled as integers (`ℤ`), ordered like datetimes.
* The MongoDB store is a `Store`: a list of position documents, a list of
  trade documents and a fresh-id counter; `find` / `find_one` / `insert_one`
  / `update_one` become list operations with first-match semantics.
* A Python `try`/`except` that swallows an error and returns a default is
  modelled by an explicit branch (division by zero in
  `calculate_position_size`, the `raises` flag of `has_open_position`).
* Configuration values read from the `Config` object are fields of a
  `Config` record, kept abstract in the theorems and instantiated with the
  spec's concrete scenario values in witnesses and counterexamples.
-/

namespace Quant

/-- Configuration constants read by `PositionManager.__init__`. -/
structure Config where
  slippage : ℚ
  fee_rate : ℚ
  risk_per_trade : ℚ
  stop_loss_atr : ℚ
  take_profit_atr : ℚ
  leverage : ℚ
  symbol_precision : ℕ
  capital : ℚ
  max_positions : ℕ
  max_risk : ℚ
deriving DecidableEq

/-- One OHLCV bar of `df_processed` (after the indicator merge); `atr_14` is
`none` when the merged indicator value is NaN. -/
structure Bar where
  timestamp : ℤ
  open_ : ℚ
  high : ℚ
  low : ℚ
  close : ℚ
  atr_14 : Option ℚ
deriving DecidableEq

/-- One signal document as read from the `signals` collection. -/
structure SignalDoc where
  timestamp : ℤ
  signal_type : String
  value : ℚ
  stop_loss : Option ℚ
  take_profit : Option ℚ
deriving DecidableEq

/-- One position document in the `positions` collection, as written by
`open_position` (stop/take already defaulted to `0.0` when absent). -/
structure PositionDoc where
  id : ℕ
  symbol : String
  side : String
  qty : ℚ
  entry_price : ℚ
  atr : ℚ
  stop_loss : ℚ
  take_profit : ℚ
  open_time : ℤ
  status : String
deriving DecidableEq

/-- One trade document as written by `close_position`. -/
structure TradeDoc where
  symbol : String
  side : String
  qty : ℚ
  entry_price : ℚ
  exit_price : ℚ
  open_time : ℤ
  close_time : ℤ
  gross_pnl : ℚ
  fee : ℚ
  pnl : ℚ
  reason : String
deriving DecidableEq

/-- The persistent store (`positions` and `trades` collections) plus a
fresh-id counter standing in for MongoDB's `_id` generation. -/
structure Store where
  positions : List PositionDoc
  trades : List TradeDoc
  nextId : ℕ
deriving DecidableEq

/-- Round half to even at integer granularity (Python's `round` tie rule). -/
def roundHalfEven (q : ℚ) : ℤ :=
  if q - ⌊q⌋ < 1 / 2 then ⌊q⌋
  else if 1 / 2 < q - ⌊q⌋ then ⌊q⌋ + 1
  else if ⌊q⌋ % 2 = 0 then ⌊q⌋ else ⌊q⌋ + 1

/-- Python's `round(x, p)` on exact rationals. -/
def pyRound (x : ℚ) (p : ℕ) : ℚ :=
  (roundHalfEven (x * 10 ^ p) : ℚ) / 10 ^ p

/-- `PositionManager.calculate_position_size` (src/position_manager.py
lines 23-33).  The `except` branch fires exactly when the division raises
`ZeroDivisionError`, i.e. when `stop_loss_distance * leverage = 0`, and
returns 0. -/
def calculate_position_size (cfg : Config) (entry_price atr capital : ℚ) : ℚ :=
  let risk_amount := capital * cfg.risk_per_trade
  let stop_loss_distance := atr * cfg.stop_loss_atr
  if stop_loss_distance * cfg.leverage = 0 then 0
  else pyRound (risk_amount / (stop_loss_distance * cfg.leverage)) cfg.symbol_precision

/-- `PositionManager.get_open_positions`: `find({"status": "open"})`. -/
def get_open_positions (store : Store) : List PositionDoc :=
  store.positions.filter (fun p => p.status = "open")

/-- The aggregate `total_risk` loop body of `check_position_limit`:
`Σ |entry_price − stop_loss| × qty` over a list of position documents. -/
def openRisk (ps : List PositionDoc) : ℚ :=
  (ps.map (fun p => |p.entry_price - p.stop_loss| * p.qty)).sum

/-- `PositionManager.check_position_limit` (src/position_manager.py
lines 44-78). -/
def check_position_limit (cfg : Config) (store : Store) (side : String)
    (entry_price atr : ℚ) : Option ℚ :=
  let positions := get_open_positions store
  let qty := calculate_position_size cfg entry_price atr cfg.capital
  if qty ≤ 0 then none
  else if cfg.max_positions ≤ positions.length then none
  else
    let total_risk := openRisk positions
    let stop_loss_price :=
      if side = "long" then entry_price - atr * cfg.stop_loss_atr
      else entry_price + atr * cfg.stop_loss_atr
    let new_risk := |entry_price - stop_loss_price| * qty
    if cfg.max_risk * cfg.capital < total_risk + new_risk then none
    else some qty

/-- `PositionManager.has_open_position` (src/position_manager.py
lines 80-92): `raises = true` models the store query raising, in which case
the `except` branch returns `false`. -/
def has_open_position (raises : Bool) (store : Store) (symbol side : String)
    (entry_price : ℚ) : Bool :=
  if raises then false
  else store.positions.any (fun p =>
    decide (p.symbol = symbol ∧ p.side = side ∧
            p.entry_price = entry_price ∧ p.status = "open"))

/-- `PositionManager.open_position` (src/position_manager.py lines 94-113):
absent stop/take levels are stored as `0.0`. -/
def open_position (store : Store) (symbol side : String) (entry_price : ℚ)
    (entry_time : ℤ) (qty atr : ℚ) (stop_loss take_profit : Option ℚ) :
    Store × PositionDoc :=
  let doc : PositionDoc :=
    { id := store.nextId, symbol := symbol, side := side, qty := qty,
      entry_price := entry_price, atr := atr,
      stop_loss := stop_loss.getD 0, take_profit := take_profit.getD 0,
      open_time := entry_time, status := "open" }
  ({ positions := store.positions ++ [doc], trades := store.trades,
     nextId := store.nextId + 1 }, doc)

/-- ASCII lowercasing of one character, as Python's `str.lower` acts on the
side strings of this code base. -/
def lowerChar (c : Char) : Char :=
  if 65 ≤ c.toNat ∧ c.toNat ≤ 90 then Char.ofNat (c.toNat + 32) else c

/-- Python's `str.lower()` on the ASCII side strings. -/
def pyLower (s : String) : String :=
  String.mk (s.data.map lowerChar)

/-- The fields of a position document that `check_exit_conditions` reads via
`position.get(...)`; `stop_loss` / `take_profit` are `none` when the key is
missing or holds `None`. -/
structure ExitQuery where
  side : String
  stop_loss : Option ℚ
  take_profit : Option ℚ
  open_time : ℤ
deriving DecidableEq

/-- View of a stored position document as the dictionary
`check_exit_conditions` receives (all keys present, values floats). -/
def toExitQuery (p : PositionDoc) : ExitQuery :=
  { side := p.side, stop_loss := some p.stop_loss,
    take_profit := some p.take_profit, open_time := p.open_time }

/-- The per-bar body of the scan loop in `check_exit_conditions`
(src/position_manager.py lines 155-179): stop-loss is tested before
take-profit for both sides. -/
def evalBarExit (cfg : Config) (side : String) (stop take : ℚ) (bar : Bar) :
    Option (ℚ × String) :=
  if side = "long" then
    if bar.low ≤ stop then some (stop * (1 - cfg.slippage), "stop_loss")
    else if take ≤ bar.high then some (take * (1 - cfg.slippage), "take_profit")
    else none
  else if side = "short" then
    if stop ≤ bar.high then some (max bar.open_ stop * (1 + cfg.slippage), "stop_loss")
    else if bar.low ≤ take then some (min bar.open_ take * (1 + cfg.slippage), "take_profit")
    else none
  else none

/-- The scan loop of `check_exit_conditions`: first bar whose conditions
fire wins; a bar is skipped when stop or take is `None`. -/
def scanExit (cfg : Config) (pos : ExitQuery) : List Bar → Option (ℚ × ℤ × String)
  | [] => none
  | bar :: rest =>
    match pos.stop_loss, pos.take_profit with
    | some stop, some take =>
      match evalBarExit cfg (pyLower pos.side) stop take bar with
      | some (price, reason) => some (price, bar.timestamp, reason)
      | none => scanExit cfg pos rest
    | _, _ => scanExit cfg pos rest

/-- `df[df['timestamp'] >= entry_time]`: the bar subset from a given open
time onward, as computed both at src/backtest_engine.py line 79 and at
src/position_manager.py lines 139-140. -/
def dataSinceEntry (df : List Bar) (open_time : ℤ) : List Bar :=
  df.filter (fun b => open_time ≤ b.timestamp)

/-- `PositionManager.check_exit_conditions` (src/position_manager.py
lines 115-186). -/
def check_exit_conditions (cfg : Config) (pos : ExitQuery) (df : List Bar) :
    Option (ℚ × ℤ × String) :=
  scanExit cfg pos (dataSinceEntry df pos.open_time)

/-- `update_one({"_id": pid}, {"$set": {"status": "closed"}})`: set the
status of the first document with the given id to `"closed"`. -/
def setClosedFirst : List PositionDoc → ℕ → List PositionDoc
  | [], _ => []
  | p :: rest, pid =>
    if p.id = pid then { p with status := "closed" } :: rest
    else p :: setClosedFirst rest pid

/-- `PositionManager.close_position` (src/position_manager.py
lines 189-230).  The lookup is by id only (no status filter). -/
def close_position (cfg : Config) (store : Store) (position_id : ℕ)
    (exit_price : ℚ) (exit_time : ℤ) (reason : String) :
    Store × Option TradeDoc :=
  match store.positions.find? (fun p => p.id == position_id) with
  | none => (store, none)
  | some position =>
    let gross_pnl :=
      if position.side = "long" then (exit_price - position.entry_price) * position.qty
      else (position.entry_price - exit_price) * position.qty
    let fee := (|position.entry_price| + |exit_price|) * position.qty * cfg.fee_rate / cfg.leverage
    let pnl := gross_pnl - fee
    let trade : TradeDoc :=
      { symbol := position.symbol, side := position.side, qty := position.qty,
        entry_price := position.entry_price, exit_price := exit_price,
        open_time := position.open_time, close_time := exit_time,
        gross_pnl := gross_pnl, fee := fee, pnl := pnl, reason := reason }
    ({ positions := setClosedFirst store.positions position_id,
       trades := store.trades ++ [trade], nextId := store.nextId }, some trade)

/-- The exit phase of one iteration of the per-bar loop in
`BacktestEngine.run` (src/backtest_engine.py lines 77-86): open positions
are snapshotted once, then each is checked on `data_since_entry` — the bars
of `df_processed` from its open time onward — and closed when an exit
fires. -/
def exitPhase (cfg : Config) (store : Store) (df : List Bar) : Store :=
  (get_open_positions store).foldl
    (fun st pos =>
      match check_exit_conditions cfg (toExitQuery pos) (dataSinceEntry df pos.open_time) with
      | some (exit_price, exit_time, reason) =>
        (close_position cfg st pos.id exit_price exit_time reason).1
      | none => st)
    store

/-- Handling of one admitted signal in the entry phase of
`BacktestEngine.run` (src/backtest_engine.py lines 102-113): limit check,
then duplicate guard, then open. `raises` is the error flag threaded to
`has_open_position`. -/
def entryStep (cfg : Config) (raises : Bool) (store : Store) (symbol : String)
    (sig : SignalDoc) (current_time : ℤ) (atr_val : ℚ) : Store :=
  match check_position_limit cfg store sig.signal_type sig.value atr_val with
  | none => store
  | some qty =>
    if 0 < qty then
      if has_open_position raises store symbol sig.signal_type sig.value then store
      else (open_position store symbol sig.signal_type sig.value current_time qty
              atr_val sig.stop_loss sig.take_profit).1
    else store

/-- The signal-cursor loop of the entry phase (src/backtest_engine.py
lines 89-115): consume every pending signal with timestamp ≤ the current
bar's, skipping those whose sizing ATR is NaN. -/
def consumeSignals (cfg : Config) (symbol : String) (bar : Bar) :
    Store → List SignalDoc → Store × List SignalDoc
  | store, [] => (store, [])
  | store, sig :: rest =>
    if sig.timestamp ≤ bar.timestamp then
      match bar.atr_14 with
      | none => consumeSignals cfg symbol bar store rest
      | some atr_val =>
        consumeSignals cfg symbol bar
          (entryStep cfg false store symbol sig bar.timestamp atr_val) rest
    else (store, sig :: rest)

/-- One iteration of the per-bar loop of `BacktestEngine.run`: exit phase
over the full `df_processed`, then entry phase. -/
def barStep (cfg : Config) (symbol : String) (df : List Bar)
    (acc : Store × List SignalDoc) (bar : Bar) : Store × List SignalDoc :=
  consumeSignals cfg symbol bar (exitPhase cfg acc.1 df) acc.2

/-- End-of-run liquidation (src/backtest_engine.py lines 117-124): every
remaining open position is closed at the last bar's close price and
timestamp with reason `"End of Backtest"`. -/
def forceClose (cfg : Config) (store : Store) (last_bar : Bar) : Store :=
  (get_open_positions store).foldl
    (fun st pos =>
      (close_position cfg st pos.id last_bar.close last_bar.timestamp "End of Backtest").1)
    store

/-- The per-symbol replay of `BacktestEngine.run`: bar loop, then forced
liquidation when any position is still open (skipped when the bar list is
empty, matching the early `continue` on an empty DataFrame). -/
def runSymbol (cfg : Config) (store : Store) (symbol : String) (df : List Bar)
    (signals : List SignalDoc) : Store :=
  match df.getLast? with
  | none => store
  | some last_bar =>
    let st := (df.foldl (barStep cfg symbol df) (store, signals)).1
    if 0 < (get_open_positions st).length then forceClose cfg st last_bar else st

/-! ## General helper lemmas -/

/-- `pyRound` at an argument whose scaled value is the integer `z`. -/
lemma pyRound_eq_of_int (x : ℚ) (p : ℕ) (z : ℤ) (h : x * 10 ^ p = (z : ℚ)) :
    pyRound x p = (z : ℚ) / 10 ^ p := by
  unfold pyRound roundHalfEven
  rw [h, Int.floor_intCast]
  norm_num

lemma closed_ne_open : "closed" ≠ "open" := by decide

lemma pyLower_long : pyLower "long" = "long" := by decide

lemma pyLower_short : pyLower "short" = "short" := by decide

lemma openRisk_append (ps qs : List PositionDoc) :
    openRisk (ps ++ qs) = openRisk ps + openRisk qs := by
  simp [openRisk]

/-- Membership in the updated position list: every document either was
already present or has status `"closed"`. -/
lemma mem_setClosedFirst {q : PositionDoc} :
    ∀ (ps : List PositionDoc) (pid : ℕ), q ∈ setClosedFirst ps pid →
      q ∈ ps ∨ q.status = "closed"
  | [], pid, h => by simp [setClosedFirst] at h
  | p :: rest, pid, h => by
    by_cases hid : p.id = pid
    · simp only [setClosedFirst, if_pos hid] at h
      rcases List.mem_cons.mp h with h | h
      · right; rw [h]
      · left; exact List.mem_cons_of_mem _ h
    · simp only [setClosedFirst, if_neg hid] at h
      rcases List.mem_cons.mp h with h | h
      · left; rw [h]; exact List.mem_cons_self _ _
      · rcases mem_setClosedFirst rest pid h with h | h
        · left; exact List.mem_cons_of_mem _ h
        · right; exact h

lemma setClosedFirst_map_id (ps : List PositionDoc) (pid : ℕ) :
    (setClosedFirst ps pid).map (fun p => p.id) = ps.map (fun p => p.id) := by
  induction ps with
  | nil => simp [setClosedFirst]
  | cons p rest ih =>
    by_cases hid : p.id = pid
    · simp [setClosedFirst, if_pos hid]
    · simp [setClosedFirst, if_neg hid, ih]

/-- After the status update, no document with the targeted id is open,
provided some document with that id exists and ids are distinct. -/
lemma setClosedFirst_closes {q : PositionDoc} :
    ∀ (ps : List PositionDoc) (pid : ℕ),
      (ps.map (fun p => p.id)).Nodup →
      q ∈ setClosedFirst ps pid → q.id = pid → q.status = "closed"
  | [], pid, _, h, _ => by simp [setClosedFirst] at h
  | p :: rest, pid, hnd, h, hqid => by
    by_cases hid : p.id = pid
    · simp only [setClosedFirst, if_pos hid] at h
      rcases List.mem_cons.mp h with h | h
      · rw [h]
      · exfalso
        have : q.id ∈ rest.map (fun p => p.id) := List.mem_map_of_mem _ h
        rw [hqid, ← hid] at this
        exact (List.nodup_cons.mp (by simpa using hnd)).1 this
    · simp only [setClosedFirst, if_neg hid] at h
      rcases List.mem_cons.mp h with h | h
      · exact absurd (h ▸ hqid) hid
      · exact setClosedFirst_closes rest pid (List.nodup_cons.mp (by simpa using hnd)).2 h hqid

/-- `close_position` never increases the number of open positions. -/
lemma openCount_close_le (cfg : Config) (store : Store) (pid : ℕ) (xp : ℚ)
    (xt : ℤ) (r : String) :
    (get_open_positions (close_position cfg store pid xp xt r).1).length ≤
      (get_open_positions store).length := by
  unfold close_position
  cases hf : store.positions.find? (fun p => p.id == pid) with
  | none => simp
  | some position =>
    simp only [get_open_positions]
    have : ∀ (ps : List PositionDoc),
        ((setClosedFirst ps pid).filter (fun p => p.status = "open")).length ≤
          (ps.filter (fun p => p.status = "open")).length := by
      intro ps
      induction ps with
      | nil => simp [setClosedFirst]
      | cons p rest ih =>
        by_cases hid : p.id = pid
        · by_cases hop : p.status = "open" <;>
            simp [setClosedFirst, hid, List.filter_cons, hop, closed_ne_open]
        · by_cases hop : p.status = "open" <;>
            simp [setClosedFirst, hid, List.filter_cons, hop, ih]
    exact this store.positions

/-- `close_position` mutates no position back to open: every open document
after the call was already a document of the store. -/
lemma open_after_close_mem (cfg : Config) (store : Store) (pid : ℕ) (xp : ℚ)
    (xt : ℤ) (r : String) :
    ∀ q ∈ (close_position cfg store pid xp xt r).1.positions,
      q.status = "open" → q ∈ store.positions := by
  intro q hq hopen
  unfold close_position at hq
  cases hf : store.positions.find? (fun p => p.id == pid) with
  | none => rw [hf] at hq; exact hq
  | some position =>
    rw [hf] at hq
    simp only at hq
    rcases mem_setClosedFirst store.positions pid hq with h | h
    · exact h
    · rw [h] at hopen; exact absurd hopen (by decide)

/-- Inversion of a successful `check_position_limit`: the returned quantity
is the sized one, it is positive, the open-position count is strictly below
the maximum, and aggregate risk plus the candidate's derived risk fits the
budget. -/
lemma check_position_limit_some (cfg : Config) (store : Store) (side : String)
    (entry_price atr qty : ℚ)
    (h : check_position_limit cfg store side entry_price atr = some qty) :
    qty = calculate_position_size cfg entry_price atr cfg.capital ∧ 0 < qty ∧
    (get_open_positions store).length < cfg.max_positions ∧
    openRisk (get_open_positions store) +
        |entry_price - (if side = "long" then entry_price - atr * cfg.stop_loss_atr
                        else entry_price + atr * cfg.stop_loss_atr)| * qty ≤
      cfg.max_risk * cfg.capital := by
  unfold check_position_limit at h
  by_cases h1 : calculate_position_size cfg entry_price atr cfg.capital ≤ 0
  · simp [h1] at h
  · by_cases h2 : cfg.max_positions ≤ (get_open_positions store).length
    · simp [h1, h2] at h
    · by_cases h3 : cfg.max_risk * cfg.capital <
        openRisk (get_open_positions store) +
          |entry_price - (if side = "long" then entry_price - atr * cfg.stop_loss_atr
                          else entry_price + atr * cfg.stop_loss_atr)| *
            calculate_position_size cfg entry_price atr cfg.capital
      · simp [h1, h2, h3] at h
      · simp only [if_neg h1, if_neg h2, if_neg h3] at h
        have hq : qty = calculate_position_size cfg entry_price atr cfg.capital :=
          (Option.some_inj.mp h).symm
        refine ⟨hq, by rw [hq]; exact lt_of_not_le h1, lt_of_not_le h2, ?_⟩
        rw [hq]
        exact le_of_not_lt h3

/-- Opening a position appends one open document to the open set. -/
lemma get_open_open_position (store : Store) (symbol side : String)
    (entry_price : ℚ) (entry_time : ℤ) (qty atr : ℚ) (sl tp : Option ℚ) :
    get_open_positions (open_position store symbol side entry_price entry_time qty atr sl tp).1 =
      get_open_positions store ++
        [(open_position store symbol side entry_price entry_time qty atr sl tp).2] := by
  simp [get_open_positions, open_position, List.filter_append]

/-- The entry phase never pushes the open-position count above the
configured maximum. -/
lemma openCount_entryStep_le (cfg : Config) (raises : Bool) (store : Store)
    (symbol : String) (sig : SignalDoc) (t : ℤ) (atr : ℚ)
    (h : (get_open_positions store).length ≤ cfg.max_positions) :
    (get_open_positions (entryStep cfg raises store symbol sig t atr)).length ≤
      cfg.max_positions := by
  unfold entryStep
  cases hc : check_position_limit cfg store sig.signal_type sig.value atr with
  | none => exact h
  | some qty =>
    have hlt := (check_position_limit_some cfg store sig.signal_type sig.value atr qty hc).2.2.1
    by_cases hq : 0 < qty
    · by_cases hdup : has_open_position raises store symbol sig.signal_type sig.value
      · simp only [if_pos hq, if_pos hdup]; exact h
      · simp only [if_pos hq, if_neg hdup]
        rw [get_open_open_position]
        simp only [List.length_append, List.length_singleton]
        omega
    · simp only [if_neg hq]; exact h

/-- A fold of per-position closes never increases the open-position count. -/
lemma openCount_closeFold_le (cfg : Config) (df : List Bar) :
    ∀ (l : List PositionDoc) (store : Store),
      (get_open_positions
        (l.foldl (fun st pos =>
          match check_exit_conditions cfg (toExitQuery pos) (dataSinceEntry df pos.open_time) with
          | some (exit_price, exit_time, reason) =>
            (close_position cfg st pos.id exit_price exit_time reason).1
          | none => st) store)).length ≤
      (get_open_positions store).length
  | [], store => le_refl _
  | pos :: rest, store => by
    simp only [List.foldl_cons]
    cases hc : check_exit_conditions cfg (toExitQuery pos) (dataSinceEntry df pos.open_time) with
    | none =>
      simp only [hc]
      exact openCount_closeFold_le cfg df rest store
    | some v =>
      obtain ⟨xp, xt, r⟩ := v
      simp only [hc]
      exact le_trans (openCount_closeFold_le cfg df rest _)
        (openCount_close_le cfg store pos.id xp xt r)

/-- The exit phase never increases the open-position count. -/
lemma openCount_exitPhase_le (cfg : Config) (store : Store) (df : List Bar) :
    (get_open_positions (exitPhase cfg store df)).length ≤
      (get_open_positions store).length := by
  unfold exitPhase
  exact openCount_closeFold_le cfg df (get_open_positions store) store

/-- The signal-consumption loop preserves the open-position bound. -/
lemma openCount_consumeSignals_le (cfg : Config) (symbol : String) (bar : Bar) :
    ∀ (sigs : List SignalDoc) (store : Store),
      (get_open_positions store).length ≤ cfg.max_positions →
      (get_open_positions (consumeSignals cfg symbol bar store sigs).1).length ≤
        cfg.max_positions
  | [], store, h => h
  | sig :: rest, store, h => by
    unfold consumeSignals
    by_cases ht : sig.timestamp ≤ bar.timestamp
    · simp only [if_pos ht]
      cases bar.atr_14 with
      | none => exact openCount_consumeSignals_le cfg symbol bar rest store h
      | some atr =>
        exact openCount_consumeSignals_le cfg symbol bar rest _
          (openCount_entryStep_le cfg false store symbol sig bar.timestamp atr h)
    · simp only [if_neg ht]; exact h

/-- One full bar iteration preserves the open-position bound. -/
lemma openCount_barStep_le (cfg : Config) (symbol : String) (df : List Bar)
    (acc : Store × List SignalDoc) (bar : Bar)
    (h : (get_open_positions acc.1).length ≤ cfg.max_positions) :
    (get_open_positions (barStep cfg symbol df acc bar).1).length ≤ cfg.max_positions := by
  unfold barStep
  exact openCount_consumeSignals_le cfg symbol bar acc.2 _
    (le_trans (openCount_exitPhase_le cfg acc.1 df) h)

/-- A fold of end-of-run closes never increases the open-position count. -/
lemma openCount_forceFold_le (cfg : Config) (last_bar : Bar) :
    ∀ (l : List PositionDoc) (store : Store),
      (get_open_positions
        (l.foldl (fun st pos =>
          (close_position cfg st pos.id last_bar.close last_bar.timestamp "End of Backtest").1)
          store)).length ≤
      (get_open_positions store).length
  | [], store => le_refl _
  | pos :: rest, store => by
    simp only [List.foldl_cons]
    exact le_trans (openCount_forceFold_le cfg last_bar rest _)
      (openCount_close_le cfg store pos.id last_bar.close last_bar.timestamp "End of Backtest")

/-- End-of-run liquidation never increases the open-position count. -/
lemma openCount_forceClose_le (cfg : Config) (store : Store) (last_bar : Bar) :
    (get_open_positions (forceClose cfg store last_bar)).length ≤
      (get_open_positions store).length := by
  unfold forceClose
  exact openCount_forceFold_le cfg last_bar (get_open_positions store) store

/-- Any trade present after a `close_position` call was either already
recorded or carries exactly the exit price, exit time and reason of the
call. -/
lemma close_position_trades_cases (cfg : Config) (st : Store) (pid : ℕ)
    (xp : ℚ) (xt : ℤ) (r : String) :
    ∀ t ∈ (close_position cfg st pid xp xt r).1.trades,
      t ∈ st.trades ∨ (t.exit_price = xp ∧ t.close_time = xt ∧ t.reason = r) := by
  intro t ht
  unfold close_position at ht
  cases hf : st.positions.find? (fun p => p.id == pid) with
  | none => rw [hf] at ht; exact Or.inl ht
  | some position =>
    rw [hf] at ht
    simp only at ht
    rcases List.mem_append.mp ht with h | h
    · exact Or.inl h
    · rcases List.mem_singleton.mp h with rfl
      exact Or.inr ⟨rfl, rfl, rfl⟩

/-- `close_position` preserves the multiset of position ids. -/
lemma close_position_map_id (cfg : Config) (st : Store) (pid : ℕ) (xp : ℚ)
    (xt : ℤ) (r : String) :
    (close_position cfg st pid xp xt r).1.positions.map (fun p => p.id) =
      st.positions.map (fun p => p.id) := by
  unfold close_position
  cases hf : st.positions.find? (fun p => p.id == pid) with
  | none => rfl
  | some position => simpa using setClosedFirst_map_id st.positions pid

/-- The fold of end-of-run closes leaves no position open, provided ids are
distinct and every open position's id occurs in the processed list. -/
lemma forceFold_closes (cfg : Config) (last_bar : Bar) :
    ∀ (l : List PositionDoc) (store : Store),
      (store.positions.map (fun p => p.id)).Nodup →
      (∀ p ∈ store.positions, p.status = "open" → p.id ∈ l.map (fun p => p.id)) →
      get_open_positions
        (l.foldl (fun st pos =>
          (close_position cfg st pos.id last_bar.close last_bar.timestamp "End of Backtest").1)
          store) = []
  | [], store, hnd, hcov => by
    simp only [List.foldl_nil]
    refine List.filter_eq_nil_iff.mpr ?_
    intro p hp
    simp only [decide_eq_true_eq]
    intro hopen
    simpa using hcov p hp hopen
  | pos :: rest, store, hnd, hcov => by
    simp only [List.foldl_cons]
    set st1 := (close_position cfg store pos.id last_bar.close last_bar.timestamp
      "End of Backtest").1 with hst1
    have hnd1 : (st1.positions.map (fun p => p.id)).Nodup := by
      rw [hst1, close_position_map_id]; exact hnd
    refine forceFold_closes cfg last_bar rest st1 hnd1 ?_
    intro p hp hopen
    rw [hst1] at hp
    unfold close_position at hp
    cases hf : store.positions.find? (fun q => q.id == pos.id) with
    | none =>
      rw [hf] at hp
      have hmem : p.id ∈ (pos :: rest).map (fun p => p.id) := hcov p hp hopen
      rcases List.mem_cons.mp hmem with h | h
      · exfalso
        have := List.find?_eq_none.mp hf p hp
        simp [h] at this
      · exact h
    | some q =>
      rw [hf] at hp
      simp only at hp
      have hmemold : p ∈ store.positions := by
        rcases mem_setClosedFirst store.positions pos.id hp with h | h
        · exact h
        · rw [h] at hopen; exact absurd hopen (by decide)
      have hmem : p.id ∈ (pos :: rest).map (fun p => p.id) := hcov p hmemold hopen
      rcases List.mem_cons.mp hmem with h | h
      · exfalso
        have := setClosedFirst_closes store.positions pos.id hnd hp h
        rw [this] at hopen
        exact absurd hopen (by decide)
      · exact h

/-- Any trade present after the end-of-run liquidation fold was either
already recorded or records a close at the last bar's price and timestamp
with reason `"End of Backtest"`. -/
lemma forceFold_trades (cfg : Config) (last_bar : Bar) :
    ∀ (l : List PositionDoc) (store : Store),
      ∀ t ∈ (l.foldl (fun st pos =>
          (close_position cfg st pos.id last_bar.close last_bar.timestamp "End of Backtest").1)
          store).trades,
        t ∈ store.trades ∨
          (t.exit_price = last_bar.close ∧ t.close_time = last_bar.timestamp ∧
            t.reason = "End of Backtest")
  | [], store, t, ht => Or.inl ht
  | pos :: rest, store, t, ht => by
    simp only [List.foldl_cons] at ht
    rcases forceFold_trades cfg last_bar rest _ t ht with h | h
    · exact close_position_trades_cases cfg store pos.id last_bar.close
        last_bar.timestamp "End of Backtest" t h
    · exact Or.inr h

/-- When stop-loss or take-profit is `None`, every bar of the scan is
skipped and the scan reports no exit. -/
lemma scanExit_none_of_missing (cfg : Config) (pos : ExitQuery)
    (h : pos.stop_loss = none ∨ pos.take_profit = none) :
    ∀ bars : List Bar, scanExit cfg pos bars = none
  | [] => rfl
  | bar :: rest => by
    rcases h with h | h <;>
      · unfold scanExit
        rcases hs : pos.stop_loss with _ | s <;> rcases ht : pos.take_profit with _ | t <;>
          simp_all [scanExit_none_of_missing cfg pos (by simp [h]) rest]

/-- On a time-sorted bar list, the engine's since-entry subset splits into
the bars up to a cut-off timestamp followed by the bars strictly after
it. -/
lemma dataSinceEntry_split (ot cur : ℤ) :
    ∀ df : List Bar,
      df.Pairwise (fun a b => a.timestamp ≤ b.timestamp) →
      dataSinceEntry df ot =
        df.filter (fun b => decide (ot ≤ b.timestamp ∧ b.timestamp ≤ cur)) ++
          df.filter (fun b => decide (ot ≤ b.timestamp ∧ cur < b.timestamp))
  | [], _ => rfl
  | b :: rest, hp => by
    have hb : ∀ x ∈ rest, b.timestamp ≤ x.timestamp := (List.pairwise_cons.mp hp).1
    have hrest := (List.pairwise_cons.mp hp).2
    have ih := dataSinceEntry_split ot cur rest hrest
    simp only [dataSinceEntry] at ih ⊢
    by_cases h1 : ot ≤ b.timestamp
    · by_cases h2 : b.timestamp ≤ cur
      · have hnot : ¬ cur < b.timestamp := not_lt.mpr h2
        simp [List.filter_cons, h1, h2, hnot, ih]
      · have hcur : cur < b.timestamp := not_le.mp h2
        have hrest_first :
            rest.filter (fun x => decide (ot ≤ x.timestamp ∧ x.timestamp ≤ cur)) = [] := by
          refine List.filter_eq_nil_iff.mpr ?_
          intro x hx
          simp only [decide_eq_true_eq, not_and, not_le]
          intro _
          exact lt_of_lt_of_le hcur (hb x hx)
        have hrest_eq :
            rest.filter (fun x => decide (ot ≤ x.timestamp)) =
              rest.filter (fun x => decide (ot ≤ x.timestamp ∧ cur < x.timestamp)) := by
          refine List.filter_congr ?_
          intro x hx
          have : cur < x.timestamp := lt_of_lt_of_le hcur (hb x hx)
          simp [this]
        simp [List.filter_cons, h1, h2, hcur, hrest_first, hrest_eq]
        intro a ha _
        exact lt_of_lt_of_le hcur (hb a ha)
    · simp [List.filter_cons, h1, ih]

/-! ## Concrete fixtures

Configuration values follow the concrete scenario of §8 of the spec
(`capital = 10000`, `riskPerTrade = 0.01`, `leverage = 1`,
`stopMultiple = 2`, `takeMultiple = 3`, `feeRate = 0.0004`,
`slippage = 0.001`), with `maxPositions = 5`, `maxRiskFraction = 0.1` and
quantity precision 3. -/

def cfgA : Config :=
  { slippage := 1 / 1000, fee_rate := 1 / 2500, risk_per_trade := 1 / 100,
    stop_loss_atr := 2, take_profit_atr := 3, leverage := 1,
    symbol_precision := 3, capital := 10000, max_positions := 5,
    max_risk := 1 / 10 }

def store0 : Store := { positions := [], trades := [], nextId := 0 }

def barA1 : Bar :=
  { timestamp := 1, open_ := 100, high := 100, low := 100, close := 100, atr_14 := some 2 }

def barA2 : Bar :=
  { timestamp := 2, open_ := 98, high := 99, low := 95, close := 97, atr_14 := some 2 }

def posDoc1 : PositionDoc :=
  { id := 0, symbol := "BTC", side := "long", qty := 25, entry_price := 100,
    atr := 2, stop_loss := 96, take_profit := 106, open_time := 1, status := "open" }

def store1 : Store := { positions := [posDoc1], trades := [], nextId := 1 }

def posDoc1c : PositionDoc := { posDoc1 with status := "closed" }

def storeClosed1 : Store := { positions := [posDoc1c], trades := [], nextId := 1 }

def posQ : ExitQuery :=
  { side := "long", stop_loss := some 96, take_profit := some 106, open_time := 1 }

/-- A signal whose stored stop-loss (50) is far from the derived stop
(100 − 2·2 = 96) used by the risk check. -/
def sigBad : SignalDoc :=
  { timestamp := 1, signal_type := "long", value := 100, stop_loss := some 50,
    take_profit := some 106 }

/-- A signal whose stored stop-loss coincides with the derived stop. -/
def sigGood : SignalDoc :=
  { timestamp := 1, signal_type := "long", value := 100, stop_loss := some 96,
    take_profit := some 106 }

/-- Sizing at the spec's scenario inputs: `10000 × 0.01 / (2 × 2 × 1) = 25`. -/
lemma calcA : calculate_position_size cfgA 100 2 10000 = 25 := by
  norm_num [calculate_position_size, cfgA]
  rw [pyRound_eq_of_int 25 3 25000 (by norm_num)]
  norm_num

/-- The limit check passes on the empty store at the scenario inputs. -/
lemma limitA : check_position_limit cfgA store0 "long" 100 2 = some 25 := by
  have hc : calculate_position_size cfgA 100 2 cfgA.capital = 25 := calcA
  simp only [check_position_limit, hc]
  norm_num [get_open_positions, store0, openRisk, cfgA]

/-- The limit check also passes with one matching open position held
(aggregate risk 100 + 100 ≤ 1000). -/
lemma limitB : check_position_limit cfgA store1 "long" 100 2 = some 25 := by
  have hc : calculate_position_size cfgA 100 2 cfgA.capital = 25 := calcA
  simp only [check_position_limit, hc]
  norm_num [get_open_positions, store1, posDoc1, openRisk, cfgA]

/-! ## Claim C4 -/

/-- C4 (amended): `calculate_position_size` returns
`round(capital × riskPerTrade / (atr × stopLossMultiple × leverage), precision)`
whenever the denominator `atr × stopLossMultiple × leverage` is nonzero —
including when it is negative, in which case the result is the (negative)
rounded quotient rather than 0 — and returns 0 exactly when that product is
zero (the division error is caught, not raised to the caller). -/
theorem C4_position_size_formula (cfg : Config) (entry_price atr capital : ℚ) :
    (atr * cfg.stop_loss_atr * cfg.leverage ≠ 0 →
      calculate_position_size cfg entry_price atr capital =
        pyRound (capital * cfg.risk_per_trade / (atr * cfg.stop_loss_atr * cfg.leverage))
          cfg.symbol_precision) ∧
    (atr * cfg.stop_loss_atr * cfg.leverage = 0 →
      calculate_position_size cfg entry_price atr capital = 0) := by
  constructor
  · intro h
    simp only [calculate_position_size]
    rw [if_neg h]
  · intro h
    simp only [calculate_position_size]
    rw [if_pos h]

/-- C4 counterexample: at `atr = −2` the product `atr × stopLossMultiple`
is negative, yet the returned quantity is −25, not 0 as the claim
states. -/
theorem C4_counterexample :
    (-2 : ℚ) * cfgA.stop_loss_atr ≤ 0 ∧
    calculate_position_size cfgA 100 (-2) 10000 = -25 ∧ ((-25 : ℚ) ≠ 0) := by
  refine ⟨by norm_num [cfgA], ?_, by norm_num⟩
  norm_num [calculate_position_size, cfgA]
  rw [pyRound_eq_of_int (-25) 3 (-25000) (by norm_num)]
  norm_num

/-- Witness for C4 at the spec's concrete scenario. -/
theorem C4_position_size_formula_witness :
    calculate_position_size cfgA 100 2 10000 =
      pyRound (10000 * cfgA.risk_per_trade / (2 * cfgA.stop_loss_atr * cfgA.leverage))
        cfgA.symbol_precision :=
  (C4_position_size_formula cfgA 100 2 10000).1 (by norm_num [cfgA])

/-! ## Claim C5 -/

lemma short_ne_long : ("short" : String) ≠ "long" := by decide

/-- C5 (confirmed): on the first scanned bar, a long position exits at
`stop × (1 − slippage)` when `bar.low ≤ stop` and at `take × (1 − slippage)`
when `bar.high ≥ take`; a short position exits at
`max(bar.open, stop) × (1 + slippage)` when `bar.high ≥ stop` and at
`min(bar.open, take) × (1 + slippage)` when `bar.low ≤ take`; and when the
stop and take conditions both hold on the same bar, the stop-loss exit is
the one returned. -/
theorem C5_exit_price_table (cfg : Config) (pos : ExitQuery) (stop take : ℚ)
    (bar : Bar) (rest : List Bar)
    (hstop : pos.stop_loss = some stop) (htake : pos.take_profit = some take)
    (htime : pos.open_time ≤ bar.timestamp) :
    (pyLower pos.side = "long" →
      ((bar.low ≤ stop →
        check_exit_conditions cfg pos (bar :: rest) =
          some (stop * (1 - cfg.slippage), bar.timestamp, "stop_loss")) ∧
       (¬ bar.low ≤ stop → take ≤ bar.high →
        check_exit_conditions cfg pos (bar :: rest) =
          some (take * (1 - cfg.slippage), bar.timestamp, "take_profit")) ∧
       (bar.low ≤ stop → take ≤ bar.high →
        check_exit_conditions cfg pos (bar :: rest) =
          some (stop * (1 - cfg.slippage), bar.timestamp, "stop_loss")))) ∧
    (pyLower pos.side = "short" →
      ((stop ≤ bar.high →
        check_exit_conditions cfg pos (bar :: rest) =
          some (max bar.open_ stop * (1 + cfg.slippage), bar.timestamp, "stop_loss")) ∧
       (¬ stop ≤ bar.high → bar.low ≤ take →
        check_exit_conditions cfg pos (bar :: rest) =
          some (min bar.open_ take * (1 + cfg.slippage), bar.timestamp, "take_profit")) ∧
       (stop ≤ bar.high → bar.low ≤ take →
        check_exit_conditions cfg pos (bar :: rest) =
          some (max bar.open_ stop * (1 + cfg.slippage), bar.timestamp, "stop_loss")))) := by
  have hfil : dataSinceEntry (bar :: rest) pos.open_time =
      bar :: dataSinceEntry rest pos.open_time := by
    simp [dataSinceEntry, List.filter_cons, htime]
  constructor
  · intro hside
    refine ⟨fun h1 => ?_, fun h1 h2 => ?_, fun h1 _ => ?_⟩
    · simp [check_exit_conditions, hfil, scanExit, hstop, htake, hside, evalBarExit, h1]
    · simp [check_exit_conditions, hfil, scanExit, hstop, htake, hside, evalBarExit, h1, h2]
    · simp [check_exit_conditions, hfil, scanExit, hstop, htake, hside, evalBarExit, h1]
  · intro hside
    refine ⟨fun h1 => ?_, fun h1 h2 => ?_, fun h1 _ => ?_⟩
    · simp [check_exit_conditions, hfil, scanExit, hstop, htake, hside, evalBarExit,
        short_ne_long, h1]
    · simp [check_exit_conditions, hfil, scanExit, hstop, htake, hside, evalBarExit,
        short_ne_long, h1, h2]
    · simp [check_exit_conditions, hfil, scanExit, hstop, htake, hside, evalBarExit,
        short_ne_long, h1]

/-- Witness for C5: scenario bar with `low = 95 ≤ stop = 96` exits the long
position at `96 × 0.999`. -/
theorem C5_exit_price_table_witness :
    check_exit_conditions cfgA posQ [barA2] =
      some (96 * (1 - cfgA.slippage), barA2.timestamp, "stop_loss") :=
  ((C5_exit_price_table cfgA posQ 96 106 barA2 [] rfl rfl
    (by norm_num [posQ, barA2])).1 (by decide)).1 (by norm_num [barA2])

/-! ## Claim C6 -/

/-- C6 (confirmed): a successful `close_position` records
`grossPnl = (exit − entry) × qty` for a long position and
`(entry − exit) × qty` for a short one, a fee of
`(|entry| + |exit|) × qty × feeRate / leverage`, and `netPnl = grossPnl −
fee`. -/
theorem C6_close_pnl (cfg : Config) (store : Store) (pid : ℕ) (exit_price : ℚ)
    (exit_time : ℤ) (reason : String) (position : PositionDoc)
    (hfind : store.positions.find? (fun p => p.id == pid) = some position) :
    ∃ trade, (close_position cfg store pid exit_price exit_time reason).2 = some trade ∧
      (position.side = "long" →
        trade.gross_pnl = (exit_price - position.entry_price) * position.qty) ∧
      (position.side = "short" →
        trade.gross_pnl = (position.entry_price - exit_price) * position.qty) ∧
      trade.fee = (|position.entry_price| + |exit_price|) * position.qty *
        cfg.fee_rate / cfg.leverage ∧
      trade.pnl = trade.gross_pnl - trade.fee := by
  unfold close_position
  rw [hfind]
  refine ⟨_, rfl, fun h => ?_, fun h => ?_, rfl, rfl⟩
  · simp [h]
  · simp [h, short_ne_long]

/-- Witness for C6 at the scenario close (`entry 100`, `exit 96`,
`qty 25`). -/
theorem C6_close_pnl_witness :
    ∃ trade, (close_position cfgA store1 0 96 2 "stop_loss").2 = some trade ∧
      (posDoc1.side = "long" →
        trade.gross_pnl = ((96 : ℚ) - posDoc1.entry_price) * posDoc1.qty) ∧
      (posDoc1.side = "short" →
        trade.gross_pnl = (posDoc1.entry_price - (96 : ℚ)) * posDoc1.qty) ∧
      trade.fee = (|posDoc1.entry_price| + |(96 : ℚ)|) * posDoc1.qty *
        cfgA.fee_rate / cfgA.leverage ∧
      trade.pnl = trade.gross_pnl - trade.fee :=
  C6_close_pnl cfgA store1 0 96 2 "stop_loss" posDoc1 rfl

/-! ## Claim C2 -/

/-- C2 (amended): after a successful `open_position` admitted by
`check_position_limit`, the sum over open positions of
`|entry − stop| × qty` is at most `maxRiskFraction × capital`, provided the
stored stop-loss of the new position equals the derived stop
`entry ∓ atr × stopLossMultiple` that the risk check used.  (The code
stores the signal's stop-loss instead, which need not equal the derived
stop, so the unconditional claim fails.) -/
theorem C2_risk_bound (cfg : Config) (store : Store) (symbol side : String)
    (entry_price : ℚ) (entry_time : ℤ) (atr qty : ℚ) (sl tp : Option ℚ)
    (hlimit : check_position_limit cfg store side entry_price atr = some qty)
    (hsl : sl = some (if side = "long" then entry_price - atr * cfg.stop_loss_atr
                      else entry_price + atr * cfg.stop_loss_atr)) :
    openRisk (get_open_positions
        (open_position store symbol side entry_price entry_time qty atr sl tp).1) ≤
      cfg.max_risk * cfg.capital := by
  obtain ⟨hq, hpos, hcount, hrisk⟩ :=
    check_position_limit_some cfg store side entry_price atr qty hlimit
  rw [get_open_open_position, openRisk_append]
  have hsingle : openRisk
      [(open_position store symbol side entry_price entry_time qty atr sl tp).2] =
      |entry_price - (if side = "long" then entry_price - atr * cfg.stop_loss_atr
                      else entry_price + atr * cfg.stop_loss_atr)| * qty := by
    simp [openRisk, open_position, hsl]
  rw [hsingle]
  exact hrisk

/-- C2 counterexample: the signal's stop-loss (50) differs from the derived
stop (96); the open succeeds, yet the stored risk `|100 − 50| × 25 = 1250`
exceeds `maxRiskFraction × capital = 1000`. -/
theorem C2_counterexample :
    (entryStep cfgA false store0 "BTC" sigBad 1 2).positions.length =
      store0.positions.length + 1 ∧
    cfgA.max_risk * cfgA.capital <
      openRisk (get_open_positions (entryStep cfgA false store0 "BTC" sigBad 1 2)) := by
  have hstep : entryStep cfgA false store0 "BTC" sigBad 1 2 =
      (open_position store0 "BTC" "long" 100 1 25 2 (some 50) (some 106)).1 := by
    have hl : check_position_limit cfgA store0 sigBad.signal_type sigBad.value 2 =
        some 25 := limitA
    unfold entryStep
    rw [hl]
    norm_num [has_open_position, store0, sigBad]
  rw [hstep]
  constructor
  · simp [open_position, store0]
  · norm_num [get_open_open_position, openRisk_append, get_open_positions, store0,
      openRisk, open_position, cfgA]

/-- Witness for C2: with the signal stop equal to the derived stop 96, the
post-open aggregate risk 100 stays within the budget 1000. -/
theorem C2_risk_bound_witness :
    openRisk (get_open_positions
        (open_position store0 "BTC" "long" 100 1 25 2 (some 96) (some 106)).1) ≤
      cfgA.max_risk * cfgA.capital :=
  C2_risk_bound cfgA store0 "BTC" "long" 100 1 2 25 (some 96) (some 106)
    limitA (by norm_num [cfgA])

/-! ## Claim C7 -/

/-- C7 (amended): a position's status moves only from open to closed and
never back; a `close_position` call naming a nonexistent id fails (returns
the null result) without mutating state; but a call naming an
already-closed position does not fail — the lookup ignores status, so the
call returns a Trade and appends a new Trade record. -/
theorem C7_close_transition (cfg : Config) (store : Store) (pid : ℕ) (xp : ℚ)
    (xt : ℤ) (r : String) :
    (store.positions.find? (fun p => p.id == pid) = none →
      close_position cfg store pid xp xt r = (store, none)) ∧
    (∀ q ∈ (close_position cfg store pid xp xt r).1.positions,
      q.status = "open" → q ∈ store.positions) ∧
    (∀ position, store.positions.find? (fun p => p.id == pid) = some position →
      ∃ t, (close_position cfg store pid xp xt r).2 = some t ∧
        (close_position cfg store pid xp xt r).1.trades = store.trades ++ [t]) := by
  refine ⟨?_, open_after_close_mem cfg store pid xp xt r, ?_⟩
  · intro h
    unfold close_position
    rw [h]
  · intro position h
    unfold close_position
    rw [h]
    exact ⟨_, rfl, rfl⟩

/-- C7 counterexample: closing the already-closed position with id 0 does
not fail — it returns a Trade and inserts a new Trade record. -/
theorem C7_counterexample :
    (close_position cfgA storeClosed1 0 96 2 "stop_loss").2 ≠ none ∧
    (close_position cfgA storeClosed1 0 96 2 "stop_loss").1.trades.length =
      storeClosed1.trades.length + 1 ∧
    posDoc1c.status = "closed" := by
  refine ⟨?_, ?_, rfl⟩ <;>
    simp [close_position, storeClosed1, posDoc1c, posDoc1, List.find?, setClosedFirst]

/-- Witness for C7: closing a nonexistent id on the empty store returns the
null result and leaves the store unchanged. -/
theorem C7_close_transition_witness :
    close_position cfgA store0 5 96 2 "stop_loss" = (store0, none) :=
  (C7_close_transition cfgA store0 5 96 2 "stop_loss").1 rfl

/-! ## Claim C8 -/

/-- C8 (amended): when the stop-loss or take-profit value of the position
dictionary is `None`, `check_exit_conditions` skips every bar and returns
not-exited for every bar set; however, `open_position` stores absent levels
as `0.0`, never `None`, so positions it creates are not skipped — they are
evaluated against level 0. -/
theorem C8_missing_levels (cfg : Config) (pos : ExitQuery) :
    ((pos.stop_loss = none ∨ pos.take_profit = none) →
      ∀ df : List Bar, check_exit_conditions cfg pos df = none) ∧
    (∀ (store : Store) (symbol side : String) (ep : ℚ) (t : ℤ) (qty atr : ℚ)
        (tp : Option ℚ),
      (toExitQuery (open_position store symbol side ep t qty atr none tp).2).stop_loss =
        some 0) ∧
    (∀ (store : Store) (symbol side : String) (ep : ℚ) (t : ℤ) (qty atr : ℚ)
        (sl : Option ℚ),
      (toExitQuery (open_position store symbol side ep t qty atr sl none).2).take_profit =
        some 0) :=
  ⟨fun h df => scanExit_none_of_missing cfg pos h _,
   fun _ _ _ _ _ _ _ _ => rfl, fun _ _ _ _ _ _ _ _ => rfl⟩

/-- C8 counterexample: a position opened from a signal with absent stop and
take levels carries 0.0 for both, is not skipped, and immediately exits
with reason take-profit at price 0 on the scenario bar. -/
theorem C8_counterexample :
    (toExitQuery (open_position store0 "BTC" "long" 100 1 25 2 none none).2).stop_loss ≠
      none ∧
    check_exit_conditions cfgA
        (toExitQuery (open_position store0 "BTC" "long" 100 1 25 2 none none).2)
        [barA2] =
      some (0, 2, "take_profit") := by
  constructor
  · simp [toExitQuery, open_position]
  · norm_num [check_exit_conditions, dataSinceEntry, scanExit, evalBarExit, toExitQuery,
      open_position, store0, barA2, cfgA, pyLower_long]

/-- Witness for C8: a dictionary position with `stop_loss = None` is never
exited, for the scenario bar set. -/
theorem C8_missing_levels_witness :
    check_exit_conditions cfgA
      { side := "long", stop_loss := none, take_profit := some 106, open_time := 1 }
      [barA1, barA2] = none :=
  (C8_missing_levels cfgA
    { side := "long", stop_loss := none, take_profit := some 106, open_time := 1 }).1
    (Or.inl rfl) [barA1, barA2]

/-! ## Claim C9 -/

/-- The per-bar loop preserves the open-position bound over any bar
sequence. -/
lemma openCount_barFold_le (cfg : Config) (symbol : String) (df : List Bar) :
    ∀ (bars : List Bar) (acc : Store × List SignalDoc),
      (get_open_positions acc.1).length ≤ cfg.max_positions →
      (get_open_positions ((bars.foldl (barStep cfg symbol df) acc)).1).length ≤
        cfg.max_positions
  | [], acc, h => h
  | bar :: rest, acc, h => by
    simp only [List.foldl_cons]
    exact openCount_barFold_le cfg symbol df rest _
      (openCount_barStep_le cfg symbol df acc bar h)

/-- C9 (confirmed): `check_position_limit` rejects whenever the open count
has reached the configured maximum, and throughout a sequential replay —
after any prefix of bars, and after the final liquidation — the open count
never exceeds that maximum if it started within it. -/
theorem C9_max_positions_invariant (cfg : Config) :
    (∀ (store : Store) (side : String) (ep atr : ℚ),
      cfg.max_positions ≤ (get_open_positions store).length →
      check_position_limit cfg store side ep atr = none) ∧
    (∀ (store : Store) (symbol : String) (df bars : List Bar)
        (signals : List SignalDoc),
      (get_open_positions store).length ≤ cfg.max_positions →
      (get_open_positions
        ((bars.foldl (barStep cfg symbol df) (store, signals)).1)).length ≤
        cfg.max_positions) ∧
    (∀ (store : Store) (symbol : String) (df : List Bar)
        (signals : List SignalDoc),
      (get_open_positions store).length ≤ cfg.max_positions →
      (get_open_positions (runSymbol cfg store symbol df signals)).length ≤
        cfg.max_positions) := by
  refine ⟨?_, ?_, ?_⟩
  · intro store side ep atr h
    unfold check_position_limit
    by_cases h1 : calculate_position_size cfg ep atr cfg.capital ≤ 0
    · simp [h1]
    · simp [h1, h]
  · intro store symbol df bars signals h
    exact openCount_barFold_le cfg symbol df bars (store, signals) h
  · intro store symbol df signals h
    unfold runSymbol
    cases hl : df.getLast? with
    | none => exact h
    | some last_bar =>
      simp only
      set st := (df.foldl (barStep cfg symbol df) (store, signals)).1 with hst
      have hb : (get_open_positions st).length ≤ cfg.max_positions := by
        rw [hst]
        exact openCount_barFold_le cfg symbol df df (store, signals) h
      by_cases hopen : 0 < (get_open_positions st).length
      · rw [if_pos hopen]
        exact le_trans (openCount_forceClose_le cfg st last_bar) hb
      · rw [if_neg hopen]
        exact hb

/-- Witness for C9: the bound holds after a full replay of the two
scenario bars with one pending signal from the empty store. -/
theorem C9_max_positions_invariant_witness :
    (get_open_positions
      (runSymbol cfgA store0 "BTC" [barA1, barA2] [sigGood])).length ≤
      cfgA.max_positions :=
  (C9_max_positions_invariant cfgA).2.2 store0 "BTC" [barA1, barA2] [sigGood]
    (by norm_num [get_open_positions, store0, cfgA])

/-! ## Claim C10 -/

/-- C10 (confirmed): when the store query inside `has_open_position`
raises, the guard returns `false` — even though a matching open position
exists (the guard would report `true` on a healthy store) — and the entry
phase proceeds to open a duplicate position with the same symbol, direction
and entry price. -/
theorem C10_failing_guard (cfg : Config) (store : Store) (symbol : String)
    (sig : SignalDoc) (t : ℤ) (atr qty : ℚ) (p : PositionDoc)
    (hp : p ∈ store.positions) (hsym : p.symbol = symbol)
    (hside : p.side = sig.signal_type) (hep : p.entry_price = sig.value)
    (hopen : p.status = "open")
    (hlimit : check_position_limit cfg store sig.signal_type sig.value atr = some qty) :
    has_open_position true store symbol sig.signal_type sig.value = false ∧
    has_open_position false store symbol sig.signal_type sig.value = true ∧
    ∃ doc, (entryStep cfg true store symbol sig t atr).positions =
        store.positions ++ [doc] ∧
      doc.symbol = symbol ∧ doc.side = sig.signal_type ∧
      doc.entry_price = sig.value ∧ doc.status = "open" := by
  have hqty : 0 < qty :=
    (check_position_limit_some cfg store sig.signal_type sig.value atr qty hlimit).2.1
  refine ⟨rfl, ?_, ?_⟩
  · unfold has_open_position
    rw [if_neg (by simp)]
    refine List.any_eq_true.mpr ⟨p, hp, ?_⟩
    simp [hsym, hside, hep, hopen]
  · unfold entryStep
    rw [hlimit]
    simp only [if_pos hqty]
    have hguard : has_open_position true store symbol sig.signal_type sig.value = false := rfl
    rw [hguard]
    simp only [Bool.false_eq_true, if_false]
    refine ⟨(open_position store symbol sig.signal_type sig.value t qty atr
      sig.stop_loss sig.take_profit).2, ?_, rfl, rfl, rfl, rfl⟩
    simp [open_position]

/-- Witness for C10: the store already holds an identical open long at 100,
the query "raises", and a duplicate document is appended. -/
theorem C10_failing_guard_witness :
    has_open_position true store1 "BTC" sigGood.signal_type sigGood.value = false ∧
    has_open_position false store1 "BTC" sigGood.signal_type sigGood.value = true ∧
    ∃ doc, (entryStep cfgA true store1 "BTC" sigGood 1 2).positions =
        store1.positions ++ [doc] ∧
      doc.symbol = "BTC" ∧ doc.side = sigGood.signal_type ∧
      doc.entry_price = sigGood.value ∧ doc.status = "open" :=
  C10_failing_guard cfgA store1 "BTC" sigGood 1 2 25 posDoc1
    (by simp [store1]) rfl rfl rfl rfl limitB

/-! ## Claim C3 -/

/-- C3 (amended): when the bar sequence is exhausted, the forced
liquidation closes every remaining open position — leaving zero open
positions — and every trade it records carries the last bar's close price
and timestamp with reason exactly the string `"End of Backtest"` (not
`"end_of_backtest"` as the claim states). -/
theorem C3_end_of_backtest (cfg : Config) (store : Store) (last_bar : Bar)
    (hnd : (store.positions.map (fun p => p.id)).Nodup) :
    (get_open_positions (forceClose cfg store last_bar)).length = 0 ∧
    ∀ t ∈ (forceClose cfg store last_bar).trades,
      t ∈ store.trades ∨
        (t.exit_price = last_bar.close ∧ t.close_time = last_bar.timestamp ∧
          t.reason = "End of Backtest") := by
  constructor
  · unfold forceClose
    rw [forceFold_closes cfg last_bar (get_open_positions store) store hnd ?_]
    · rfl
    · intro p hp hopen
      refine List.mem_map_of_mem _ ?_
      exact List.mem_filter.mpr ⟨hp, by simp [hopen]⟩
  · unfold forceClose
    exact forceFold_trades cfg last_bar (get_open_positions store) store

/-- C3 counterexample: the forced close of the scenario position records
the reason string `"End of Backtest"`, which is not `"end_of_backtest"`. -/
theorem C3_counterexample :
    (forceClose cfgA store1 barA2).trades.map (fun t => t.reason) =
      ["End of Backtest"] ∧
    ("End of Backtest" : String) ≠ "end_of_backtest" := by
  constructor
  · simp [forceClose, get_open_positions, store1, posDoc1, close_position,
      setClosedFirst, barA2, List.find?]
  · decide

/-- Witness for C3: the scenario store is fully liquidated. -/
theorem C3_end_of_backtest_witness :
    (get_open_positions (forceClose cfgA store1 barA2)).length = 0 :=
  (C3_end_of_backtest cfgA store1 barA2 (by simp [store1])).1

/-! ## Claim C1 -/

/-- C1 (amended): the bar set handed to `check_exit_conditions` for an open
position during the exit phase is `df[df.timestamp >= open_time]` — on a
time-sorted bar list it equals the bars from the open time through the
current bar **followed by every bar after the current one** — so a bar
after the current one can supply the first-touch exit trigger on that
iteration. -/
theorem C1_bars_handed (df : List Bar) (pos : PositionDoc) (cur : ℤ)
    (hsorted : df.Pairwise (fun a b => a.timestamp ≤ b.timestamp)) :
    dataSinceEntry df pos.open_time =
      df.filter (fun b => decide (pos.open_time ≤ b.timestamp ∧ b.timestamp ≤ cur)) ++
        df.filter (fun b => decide (pos.open_time ≤ b.timestamp ∧ cur < b.timestamp)) :=
  dataSinceEntry_split pos.open_time cur df hsorted

/-- C1 counterexample: while the engine processes the first bar
(timestamp 1), the set handed for the position opened at timestamp 1 is not
the through-current subset — it also contains the bar at timestamp 2 — and
the exit phase of that very iteration already closes the position using the
second bar, recording a trade whose close time 2 lies after the current
bar. -/
theorem C1_counterexample :
    dataSinceEntry [barA1, barA2] posDoc1.open_time ≠
      [barA1, barA2].filter
        (fun b => decide (posDoc1.open_time ≤ b.timestamp ∧ b.timestamp ≤ barA1.timestamp)) ∧
    (barStep cfgA "BTC" [barA1, barA2] (store1, []) barA1).1.trades.map
        (fun t => t.close_time) = [2] ∧
    barA1.timestamp < barA2.timestamp := by
  refine ⟨?_, ?_, by norm_num [barA1, barA2]⟩
  · simp [dataSinceEntry, List.filter_cons, barA1, barA2, posDoc1]
  · have hexit : check_exit_conditions cfgA (toExitQuery posDoc1)
        (dataSinceEntry [barA1, barA2] posDoc1.open_time) =
        some (96 * (1 - cfgA.slippage), 2, "stop_loss") := by
      norm_num [check_exit_conditions, dataSinceEntry, scanExit, evalBarExit,
        toExitQuery, posDoc1, barA1, barA2, cfgA, pyLower_long]
    have hphase : exitPhase cfgA store1 [barA1, barA2] =
        (close_position cfgA store1 posDoc1.id (96 * (1 - cfgA.slippage)) 2
          "stop_loss").1 := by
      have hsnap : get_open_positions store1 = [posDoc1] := by
        simp [get_open_positions, store1, posDoc1]
      unfold exitPhase
      rw [hsnap]
      simp only [List.foldl_cons, List.foldl_nil, hexit]
    unfold barStep
    rw [hphase]
    norm_num [consumeSignals, close_position, store1, posDoc1, List.find?,
      setClosedFirst]

/-- Witness for C1 on the sorted two-bar scenario list, cutting at the
first bar's timestamp. -/
theorem C1_bars_handed_witness :
    dataSinceEntry [barA1, barA2] posDoc1.open_time =
      [barA1, barA2].filter
        (fun b => decide (posDoc1.open_time ≤ b.timestamp ∧ b.timestamp ≤ barA1.timestamp)) ++
        [barA1, barA2].filter
          (fun b => decide (posDoc1.open_time ≤ b.timestamp ∧ barA1.timestamp < b.timestamp)) :=
  C1_bars_handed [barA1, barA2] posDoc1 barA1.timestamp
    (by norm_num [List.pairwise_cons, barA1, barA2])

end Quant
